import Mathlib

/-!
Verification development for the aworld client-server movement
synchronization subsystem.  The definitions below are shallow embeddings
of the JavaScript client code: PlayerControls (static/js/controls.js),
the prediction / reconciliation Game variant and the interpolation Game
variant (static/js/game.js variants), together with the server-level
physics constants documented in the repository design document.
Numbers are modelled as exact rationals.
-/

namespace AWorld

/-- A 3D vector with rational components, modelling the {x, y, z}
position and movement objects of the JavaScript code. -/
structure Vec3 where
  x : ℚ
  y : ℚ
  z : ℚ
deriving DecidableEq, Repr

/-- The held-key flags of PlayerControls.keys. -/
structure Keys where
  forward : Bool
  backward : Bool
  left : Bool
  right : Bool
  jump : Bool
  sprint : Bool
  crouch : Bool
deriving DecidableEq, Repr

/-- All keys released, as produced by PlayerControls.handleBlur. -/
def noKeys : Keys :=
  ⟨false, false, false, false, false, false, false⟩

/-- The state of a PlayerControls instance (controls.js).  Event-listener
plumbing and wall-clock bookkeeping (lastActiveTime, checkInterval) are
omitted; every field read or written by getMovementVector and update is
present. -/
structure Controls where
  keys : Keys
  cameraRotation : ℚ
  moveSpeed : ℚ
  sprintMultiplier : ℚ
  crouchMultiplier : ℚ
  jumpForce : ℚ
  gravity : ℚ
  groundLevel : ℚ
  verticalVelocity : ℚ
  isGrounded : Bool
  wasJumpPressed : Bool
  isActive : Bool
deriving DecidableEq, Repr

/-- The PlayerControls constructor defaults (controls.js lines 2-27):
moveSpeed 0.1, sprint x2, crouch x0.5, jumpForce 0.2, gravity 0.01,
groundLevel 0, grounded, active, no keys held. -/
def defaultControls : Controls where
  keys := noKeys
  cameraRotation := 0
  moveSpeed := 1/10
  sprintMultiplier := 2
  crouchMultiplier := 1/2
  jumpForce := 1/5
  gravity := 1/100
  groundLevel := 0
  verticalVelocity := 0
  isGrounded := true
  wasJumpPressed := false
  isActive := true

/-- Server-level physics constant GRAVITY, 0.02 units per tick, from the
repository design document section 3.11 (Configuration and Environment
Variables). -/
def GRAVITY : ℚ := 1/50

/-- Server-level physics constant JUMP_VELOCITY, 0.25 units per tick,
from the repository design document section 3.11. -/
def JUMP_VELOCITY : ℚ := 1/4

/-- The optional fields of a physics-config payload accepted by
PlayerControls.setPhysicsConfig; a field is none when the JavaScript
typeof-number check fails. -/
structure PhysicsConfig where
  gravity : Option ℚ
  jumpVelocity : Option ℚ
  jumpForce : Option ℚ
  groundLevel : Option ℚ
deriving DecidableEq, Repr

/-- PlayerControls.setPhysicsConfig (controls.js lines 33-47): gravity
overrides gravity, jumpVelocity maps onto jumpForce with precedence over
a plain jumpForce field, groundLevel overrides groundLevel. -/
def setPhysicsConfig (c : Controls) (config : PhysicsConfig) : Controls :=
  let c1 :=
    match config.gravity with
    | some g => { c with gravity := g }
    | none => c
  let c2 :=
    match config.jumpVelocity with
    | some jv => { c1 with jumpForce := jv }
    | none =>
      match config.jumpForce with
      | some jf => { c1 with jumpForce := jf }
      | none => c1
  match config.groundLevel with
  | some gl => { c2 with groundLevel := gl }
  | none => c2

/-- The physics config served by the backend /physics endpoint, carrying
the server-level constants of the design document (gravity and
jumpVelocity; no jumpForce or groundLevel field is assumed). -/
def serverPhysicsConfig : PhysicsConfig where
  gravity := some GRAVITY
  jumpVelocity := some JUMP_VELOCITY
  jumpForce := none
  groundLevel := none

/-- PlayerControls.handleBlur (controls.js lines 116-123): deactivate
and reset every held-key flag to false. -/
def handleBlur (c : Controls) : Controls :=
  { c with isActive := false, keys := noKeys }

/-- PlayerControls.handleFocus (controls.js lines 110-114): reactivate
the controls. -/
def handleFocus (c : Controls) : Controls :=
  { c with isActive := true }

/-- PlayerControls.getMovementVector (controls.js lines 188-223).  The
JavaScript evaluates Math.cos and Math.sin of cameraRotation; those
transcendental functions are passed in as parameters cosF and sinF since
their values are not rational. -/
def getMovementVector (cosF sinF : ℚ → ℚ) (c : Controls) : Vec3 :=
  if c.isActive = false then ⟨0, 0, 0⟩
  else
    let speed1 := c.moveSpeed
    let speed2 := if c.keys.sprint then speed1 * c.sprintMultiplier else speed1
    let speed := if c.keys.crouch then speed2 * c.crouchMultiplier else speed2
    let cr := cosF c.cameraRotation
    let sr := sinF c.cameraRotation
    let dx1 := if c.keys.forward then 0 - sr * speed else 0
    let dz1 := if c.keys.forward then 0 - cr * speed else 0
    let dx2 := if c.keys.backward then dx1 + sr * speed else dx1
    let dz2 := if c.keys.backward then dz1 + cr * speed else dz1
    let dx3 := if c.keys.left then dx2 - cr * speed else dx2
    let dz3 := if c.keys.left then dz2 + sr * speed else dz2
    let dx4 := if c.keys.right then dx3 + cr * speed else dx3
    let dz4 := if c.keys.right then dz3 - sr * speed else dz3
    ⟨dx4, 0, dz4⟩

/-- The jump-handling block of PlayerControls.update (controls.js lines
231-238): on a fresh press of the jump key while grounded, set
verticalVelocity to jumpForce and clear isGrounded; otherwise leave the
state untouched. -/
def applyJump (c : Controls) : Controls :=
  if c.keys.jump && !c.wasJumpPressed && c.isGrounded then
    { c with verticalVelocity := c.jumpForce, isGrounded := false }
  else c

/-- PlayerControls.update (controls.js lines 226-263).  Takes the
current logical vertical position y, returns the updated controls state
and the movement vector for the frame (horizontal from
getMovementVector, vertical the height change).  Inactive controls
return the zero vector and change nothing. -/
def update (cosF sinF : ℚ → ℚ) (c : Controls) (y : ℚ) : Controls × Vec3 :=
  if c.isActive = false then (c, ⟨0, 0, 0⟩)
  else
    let c1 := applyJump c
    let v1 := if c1.isGrounded then c1.verticalVelocity else c1.verticalVelocity - c1.gravity
    let newY := y + v1
    let landed := newY ≤ c.groundLevel
    let newY2 := if landed then c.groundLevel else newY
    let v2 := if landed then 0 else v1
    let g2 := if landed then true else c1.isGrounded
    let m := getMovementVector cosF sinF c
    ({ c1 with verticalVelocity := v2, isGrounded := g2, wasJumpPressed := c.keys.jump },
      { m with y := newY2 - y })

/-- Trivial stand-in for the trigonometric parameters in scenarios where
no horizontal movement key is held (the values are then never used in
the resulting vector). -/
def zeroTrig : ℚ → ℚ := fun _ => 0

/-- Controls for the jump scenario: client controls after applying the
server physics config (gravity 0.02, jump velocity 0.25), with the jump
key held from the first tick on. -/
def jumpHeldControls : Controls :=
  let c := setPhysicsConfig defaultControls serverPhysicsConfig
  { c with keys := { noKeys with jump := true } }

/-- Iterate PlayerControls.update from jumpHeldControls at ground level,
feeding the returned height change back as the next vertical position,
exactly as the animation loop does.  Returns the controls state and the
logical vertical position after n ticks. -/
def jumpIter : ℕ → Controls × ℚ
  | 0 => (jumpHeldControls, 0)
  | n + 1 =>
    let s := jumpIter n
    let r := update zeroTrig zeroTrig s.1 s.2
    (r.1, s.2 + r.2.y)

/-- A client-side prediction record (game.js, prediction variant):
the wall-clock timestamp at which the predicted movement was applied,
the predicted position, and the movement input used. -/
structure PredictionRecord where
  timestamp : ℚ
  position : Vec3
  input : Vec3
deriving DecidableEq, Repr

/-- The reconciliation-relevant state of the local player in the
prediction Game variant: the rendered mesh position and the retained
clientPredictions history. -/
structure LocalPlayer where
  meshPos : Vec3
  clientPredictions : List PredictionRecord
deriving DecidableEq, Repr

/-- Squared Euclidean distance between two positions.  The JavaScript
reconciler computes positionError with Math.sqrt and compares it against
a nonnegative threshold; comparisons below are made on squares, which is
equivalent since both sides are nonnegative. -/
def distSq (a b : Vec3) : ℚ :=
  (a.x - b.x) * (a.x - b.x) + (a.y - b.y) * (a.y - b.y) + (a.z - b.z) * (a.z - b.z)

/-- The findIndex predicate of Game.reconcileServerPosition: a prediction
record matches the server update when its timestamp is within 100 ms of
the server timestamp. -/
def tsMatches (serverTimestamp : ℚ) (p : PredictionRecord) : Bool :=
  |p.timestamp - serverTimestamp| < 100

/-- One replay step of Game.reconcileServerPosition: add the recorded
input delta of the record to the position, clamping the height at ground
(Math.max 0). -/
def applyRecordedInput (pos : Vec3) (p : PredictionRecord) : Vec3 :=
  ⟨pos.x + p.input.x, max 0 (pos.y + p.input.y), pos.z + p.input.z⟩

/-- The dynamic reconciliation threshold of Game.reconcileServerPosition:
Math.max(0.1, (abs input.x + abs input.z) * 5). -/
def dynamicThreshold (p : PredictionRecord) : ℚ :=
  max (1/10) ((|p.input.x| + |p.input.z|) * 5)

/-- Fused findIndex-and-slice of Game.reconcileServerPosition: returns
the first prediction record whose timestamp matches the server
timestamp, together with the records strictly after it (the JavaScript
slice(predictionIndex + 1)); none when no record matches. -/
def findMatch (serverTimestamp : ℚ) :
    List PredictionRecord → Option (PredictionRecord × List PredictionRecord)
  | [] => none
  | p :: rest =>
    if tsMatches serverTimestamp p then some (p, rest)
    else findMatch serverTimestamp rest

/-- Game.reconcileServerPosition (prediction Game variant).  With no
matching prediction the server position is accepted outright and the
history is left as is.  With a match, the history is pruned to the
records after the match; if the positional error between the matched
prediction and the server position exceeds the dynamic threshold
(compared on squares), the mesh is set to the server position and every
later record is replayed on top of it, otherwise the mesh is untouched.
The RTT bookkeeping of the source is omitted. -/
def reconcileServerPosition (st : LocalPlayer) (serverPosition : Vec3)
    (serverTimestamp : ℚ) : LocalPlayer :=
  match findMatch serverTimestamp st.clientPredictions with
  | none => { st with meshPos := serverPosition }
  | some (pred, rest) =>
    if (dynamicThreshold pred) * (dynamicThreshold pred) < distSq pred.position serverPosition then
      { meshPos := rest.foldl applyRecordedInput serverPosition, clientPredictions := rest }
    else
      { st with clientPredictions := rest }

/-- The clientPredictions append of Game.animate (prediction variant):
push the new record, then shift the oldest out when the length exceeds
60. -/
def pushPrediction (l : List PredictionRecord) (p : PredictionRecord) : List PredictionRecord :=
  let l2 := l ++ [p]
  if 60 < l2.length then l2.drop 1 else l2

/-- The events that touch the local prediction history: a predicted
frame (which moves the mesh to the predicted position and appends the
record) or an authoritative server position update. -/
inductive ClientEvent where
  | predict (p : PredictionRecord)
  | serverUpdate (serverPosition : Vec3) (serverTimestamp : ℚ)
deriving DecidableEq, Repr

/-- One step of the local player state under a client event, combining
the animate-loop append and the reconciler. -/
def stepClient (st : LocalPlayer) : ClientEvent → LocalPlayer
  | ClientEvent.predict p =>
    { meshPos := p.position, clientPredictions := pushPrediction st.clientPredictions p }
  | ClientEvent.serverUpdate sp ts => reconcileServerPosition st sp ts

/-- A buffered remote snapshot (interpolation Game variant): the arrival
time t and the broadcast logical position. -/
structure RemoteSnapshot where
  t : ℚ
  x : ℚ
  y : ℚ
  z : ℚ
deriving DecidableEq, Repr

/-- The position carried by a snapshot. -/
def snapshotPos (s : RemoteSnapshot) : Vec3 := ⟨s.x, s.y, s.z⟩

/-- The interpolation delay of the interpolation Game variant,
interpolationDelayMs = 100: remote players are rendered about 100 ms in
the past. -/
def interpolationDelayMs : ℚ := 100

/-- The render-time computation of Game.animate: renderTime = now minus
the interpolation delay. -/
def renderTimeAt (now : ℚ) : ℚ := now - interpolationDelayMs

/-- The snapshot bound of the interpolation Game variant,
maxSnapshotsPerPlayer = 20. -/
def maxSnapshotsPerPlayer : ℕ := 20

/-- The per-entity snapshot append of Game.handleGlobalStateUpdate
(interpolation variant): push, then splice from the front down to
maxSnapshotsPerPlayer entries. -/
def pushSnapshot (l : List RemoteSnapshot) (s : RemoteSnapshot) : List RemoteSnapshot :=
  let l2 := l ++ [s]
  if maxSnapshotsPerPlayer < l2.length then l2.drop (l2.length - maxSnapshotsPerPlayer) else l2

/-- The snapshot-scan loop of Game.animate, with the accumulator older
holding the last snapshot seen at or before renderTime: each snapshot at
or before renderTime replaces older; the first one after renderTime is
returned as newer and the scan stops. -/
def findBracketGo (renderTime : ℚ) (older : Option RemoteSnapshot) :
    List RemoteSnapshot → Option RemoteSnapshot × Option RemoteSnapshot
  | [] => (older, none)
  | s :: rest =>
    if s.t ≤ renderTime then findBracketGo renderTime (some s) rest
    else (older, some s)

/-- The two snapshots of the buffer bracketing renderTime, as computed
by the scan loop of Game.animate. -/
def findBracket (renderTime : ℚ) (snapshots : List RemoteSnapshot) :
    Option RemoteSnapshot × Option RemoteSnapshot :=
  findBracketGo renderTime none snapshots

/-- Linear interpolation between the positions of two snapshots. -/
def lerpSnap (o n : RemoteSnapshot) (a : ℚ) : Vec3 :=
  ⟨o.x + (n.x - o.x) * a, o.y + (n.y - o.y) * a, o.z + (n.z - o.z) * a⟩

/-- The remote-interpolation block of Game.animate (interpolation
variant): with both brackets, interpolate by the clamped fractional time
position; with only an older snapshot, hold it; with only a newer one,
use it directly; with an empty buffer, render nothing. -/
def interpolateRemote (renderTime : ℚ) (snapshots : List RemoteSnapshot) : Option Vec3 :=
  match findBracket renderTime snapshots with
  | (none, none) => none
  | (some o, some n) =>
    let span := n.t - o.t
    let alpha := if 0 < span then (renderTime - o.t) / span else 0
    let clampedAlpha := max 0 (min 1 alpha)
    some (lerpSnap o n clampedAlpha)
  | (some o, none) => some (snapshotPos o)
  | (none, some n) => some (snapshotPos n)

/-- The constant thresholds of the local soft-correction block of
Game.handleGlobalStateUpdate (interpolation variant): no correction at
squared distance up to 0.1 units squared. -/
def positionErrorThreshold : ℚ := 1/10

/-- Snap threshold of the same block: squared distance above 4 units
squared snaps to the server position. -/
def snapErrorThreshold : ℚ := 4

/-- Per-update blend factor of the same block: 0.2 of the error. -/
def correctionFactor : ℚ := 1/5

/-- The local-player soft-correction block of
Game.handleGlobalStateUpdate (interpolation variant), on mesh
coordinates: squared distance above the snap threshold sets the mesh to
the server position; above the position-error threshold the mesh blends
toward the server position by correctionFactor; otherwise the predicted
position stands. -/
def softCorrectLocal (meshPos serverMeshPos : Vec3) : Vec3 :=
  let dx := serverMeshPos.x - meshPos.x
  let dy := serverMeshPos.y - meshPos.y
  let dz := serverMeshPos.z - meshPos.z
  let dSq := dx * dx + dy * dy + dz * dz
  if snapErrorThreshold < dSq then serverMeshPos
  else if positionErrorThreshold < dSq then
    ⟨meshPos.x + dx * correctionFactor, meshPos.y + dy * correctionFactor,
      meshPos.z + dz * correctionFactor⟩
  else meshPos

/-- The reconnection counters of the Game constructor:
wsReconnectAttempts (0 initially) and maxReconnectAttempts (5). -/
structure RetryState where
  wsReconnectAttempts : ℕ
  maxReconnectAttempts : ℕ
deriving DecidableEq, Repr

/-- What the ws.onclose handler does: schedule a reconnect after a
delay, or surface the connection-lost alert to the user. -/
inductive CloseOutcome where
  | reconnectAfter (delayMs : ℕ)
  | alertConnectionLost
deriving DecidableEq, Repr

/-- The retry counters as initialized by the Game constructor. -/
def initialRetryState : RetryState := ⟨0, 5⟩

/-- The ws.onclose handler of Game.connectWebSocket: while fewer than
maxReconnectAttempts attempts have been made, schedule a reconnect after
1000 * wsReconnectAttempts milliseconds (the delay is computed before
the counter increments); otherwise alert the user that the connection is
lost. -/
def onClose (st : RetryState) : RetryState × CloseOutcome :=
  if st.wsReconnectAttempts < st.maxReconnectAttempts then
    ({ st with wsReconnectAttempts := st.wsReconnectAttempts + 1 },
      CloseOutcome.reconnectAfter (1000 * st.wsReconnectAttempts))
  else
    (st, CloseOutcome.alertConnectionLost)

/-- The ws.onopen handler: a successful connection resets the attempt
counter. -/
def onOpen (st : RetryState) : RetryState := { st with wsReconnectAttempts := 0 }

/-- The state and outcome trace of n consecutive close events with no
intervening successful open. -/
def closeTrace : RetryState → ℕ → RetryState × List CloseOutcome
  | st, 0 => (st, [])
  | st, n + 1 =>
    let r1 := onClose st
    let r2 := closeTrace r1.1 n
    (r2.1, r1.2 :: r2.2)

/-- Whether a close outcome is a scheduled reconnection attempt. -/
def isReconnect : CloseOutcome → Bool
  | CloseOutcome.reconnectAfter _ => true
  | CloseOutcome.alertConnectionLost => false

/-- Claim C1, counterexample: the client-side physics defaults are not
the server-level constants.  The PlayerControls constructor ships
gravity 0.01 and jumpForce 0.2, while the server-level constants are
GRAVITY 0.02 and JUMP_VELOCITY 0.25, so the claim that the client
default gravity and jump constants equal the server-level constants is
false. -/
theorem c1_constants_differ :
    defaultControls.gravity ≠ GRAVITY ∧ defaultControls.jumpForce ≠ JUMP_VELOCITY := by
  norm_num [defaultControls, GRAVITY, JUMP_VELOCITY]

/-- Claim C1, amended: the client and server physics constants are two
configurations, not one; the client defaults (gravity 0.01, jumpForce
0.2) differ from the server-level GRAVITY and JUMP_VELOCITY, and the
client matches the server only after applying the physics config fetched
from the backend, whose jumpVelocity field setPhysicsConfig maps onto
the client jumpForce. -/
theorem c1_amended_constants_align :
    ∀ c : Controls,
      (setPhysicsConfig c serverPhysicsConfig).gravity = GRAVITY
      ∧ (setPhysicsConfig c serverPhysicsConfig).jumpForce = JUMP_VELOCITY
      ∧ defaultControls.gravity = 1/100 ∧ defaultControls.jumpForce = 1/5 := by
  intro c
  exact ⟨rfl, rfl, rfl, rfl⟩

/-- Claim C3, counterexample: a positional error of 0.2 units, which is
above the 0.1-unit baseline the claim names, leaves the mesh unchanged
instead of blending it toward the server position, because the
no-correction tier of the code compares the squared distance (here 0.04)
against the constant 0.1 and consults no input magnitude. -/
theorem c3_threshold_not_input_derived :
    softCorrectLocal ⟨0, 0, 0⟩ ⟨1/5, 0, 0⟩ = ⟨0, 0, 0⟩
    ∧ (1/10 : ℚ) < 1/5
    ∧ softCorrectLocal ⟨0, 0, 0⟩ ⟨1/5, 0, 0⟩
        ≠ ⟨0 + (1/5 - 0) * correctionFactor, 0, 0⟩ := by
  norm_num [softCorrectLocal, positionErrorThreshold, snapErrorThreshold, correctionFactor]

/-- Claim C3, amended: the local soft-correction policy of the
interpolation Game variant is three-tier on constant squared-distance
thresholds, not input-derived ones: squared distance above 4 hard-sets
to the server position; squared distance in (0.1, 4] blends toward the
server position by the factor 0.2; squared distance at most 0.1 leaves
the predicted position unchanged. -/
theorem c3_amended_three_tier :
    ∀ m s : Vec3,
      (snapErrorThreshold < distSq s m → softCorrectLocal m s = s)
      ∧ (distSq s m ≤ snapErrorThreshold → positionErrorThreshold < distSq s m →
          softCorrectLocal m s =
            ⟨m.x + (s.x - m.x) * correctionFactor, m.y + (s.y - m.y) * correctionFactor,
              m.z + (s.z - m.z) * correctionFactor⟩)
      ∧ (distSq s m ≤ positionErrorThreshold → softCorrectLocal m s = m) := by
  intro m s
  refine ⟨?_, ?_, ?_⟩
  · intro h
    simp only [distSq] at h
    simp only [softCorrectLocal]
    rw [if_pos h]
  · intro h1 h2
    simp only [distSq] at h1 h2
    simp only [softCorrectLocal]
    rw [if_neg (not_lt.mpr h1), if_pos h2]
  · intro h
    simp only [distSq] at h
    have hts : positionErrorThreshold ≤ snapErrorThreshold := by
      norm_num [positionErrorThreshold, snapErrorThreshold]
    have h4 : ¬ snapErrorThreshold <
        (s.x - m.x) * (s.x - m.x) + (s.y - m.y) * (s.y - m.y) + (s.z - m.z) * (s.z - m.z) :=
      not_lt.mpr (le_trans h hts)
    have h5 : ¬ positionErrorThreshold <
        (s.x - m.x) * (s.x - m.x) + (s.y - m.y) * (s.y - m.y) + (s.z - m.z) * (s.z - m.z) :=
      not_lt.mpr h
    simp only [softCorrectLocal]
    rw [if_neg h4, if_neg h5]

/-- Claim C3, witness for the amended theorem: an error of 1 unit falls
in the blend tier and moves the mesh by the 0.2 correction factor. -/
theorem c3_amended_three_tier_witness :
    softCorrectLocal ⟨0, 0, 0⟩ ⟨1, 0, 0⟩
      = ⟨0 + (1 - 0) * correctionFactor, 0 + (0 - 0) * correctionFactor,
          0 + (0 - 0) * correctionFactor⟩ :=
  (c3_amended_three_tier ⟨0, 0, 0⟩ ⟨1, 0, 0⟩).2.1
    (by norm_num [distSq, snapErrorThreshold])
    (by norm_num [distSq, positionErrorThreshold])

/-- Splitting characterization of findMatch: a successful match splits
the history into the records before the match (none of them matching),
the matching record, and the records after it. -/
theorem findMatch_split (ts : ℚ) :
    ∀ (l : List PredictionRecord) (p : PredictionRecord) (rest : List PredictionRecord),
      findMatch ts l = some (p, rest) →
      ∃ pre, l = pre ++ p :: rest ∧ tsMatches ts p = true := by
  intro l
  induction l with
  | nil =>
    intro p rest h
    simp [findMatch] at h
  | cons q tl ih =>
    intro p rest h
    simp only [findMatch] at h
    by_cases hq : tsMatches ts q
    · rw [if_pos hq] at h
      rw [Option.some.injEq, Prod.mk.injEq] at h
      obtain ⟨h1, h2⟩ := h
      exact ⟨[], by rw [← h1, ← h2]; rfl, h1 ▸ hq⟩
    · rw [if_neg hq] at h
      obtain ⟨pre, hpre, hm⟩ := ih p rest h
      exact ⟨q :: pre, by rw [hpre]; rfl, hm⟩

/-- Claim C4, counterexample: an acknowledgement that matches a retained
prediction record whose error is below the dynamic threshold prunes the
history but does not replay from the authoritative state: the mesh stays
at the predicted position 0.05 instead of the replay result 0 (there are
no later records, so the claimed replay would leave the mesh exactly at
the authoritative position). -/
theorem c4_no_replay_below_threshold :
    (reconcileServerPosition ⟨⟨1/20, 0, 0⟩, [⟨0, ⟨1/20, 0, 0⟩, ⟨1/20, 0, 0⟩⟩]⟩
        ⟨0, 0, 0⟩ 0).clientPredictions = []
    ∧ (reconcileServerPosition ⟨⟨1/20, 0, 0⟩, [⟨0, ⟨1/20, 0, 0⟩, ⟨1/20, 0, 0⟩⟩]⟩
        ⟨0, 0, 0⟩ 0).meshPos
      ≠ List.foldl applyRecordedInput ⟨0, 0, 0⟩ [] := by
  norm_num [reconcileServerPosition, findMatch, tsMatches, dynamicThreshold, distSq,
    applyRecordedInput, max_def, abs_of_pos]

/-- Claim C4, amended: on an acknowledgement that matches a retained
prediction record, the reconciler always prunes the history to the
records strictly after the match; it replays those later records (as
recorded position deltas with a ground clamp) on top of the
authoritative position only when the positional error of the matched
prediction exceeds the dynamic reconciliation threshold, and otherwise
leaves the mesh at the predicted position. -/
theorem c4_amended_replay_and_prune :
    ∀ (st : LocalPlayer) (sp : Vec3) (ts : ℚ) (pred : PredictionRecord)
      (rest : List PredictionRecord),
      findMatch ts st.clientPredictions = some (pred, rest) →
      (reconcileServerPosition st sp ts).clientPredictions = rest
      ∧ ((dynamicThreshold pred) * (dynamicThreshold pred) < distSq pred.position sp →
          (reconcileServerPosition st sp ts).meshPos = rest.foldl applyRecordedInput sp)
      ∧ (distSq pred.position sp ≤ (dynamicThreshold pred) * (dynamicThreshold pred) →
          (reconcileServerPosition st sp ts).meshPos = st.meshPos)
      ∧ ∃ pre, st.clientPredictions = pre ++ pred :: rest ∧ tsMatches ts pred = true := by
  intro st sp ts pred rest h
  refine ⟨?_, ?_, ?_, findMatch_split ts st.clientPredictions pred rest h⟩
  · simp only [reconcileServerPosition, h]
    split_ifs <;> rfl
  · intro hgt
    simp only [reconcileServerPosition, h]
    rw [if_pos hgt]
  · intro hle
    simp only [reconcileServerPosition, h]
    rw [if_neg (not_lt.mpr hle)]

/-- Claim C4, witness for the amended theorem: an acknowledgement with a
large error replays the one later record on top of the authoritative
position. -/
theorem c4_amended_replay_and_prune_witness :
    (reconcileServerPosition ⟨⟨6, 0, 0⟩, [⟨0, ⟨5, 0, 0⟩, ⟨1/10, 0, 0⟩⟩,
        ⟨10, ⟨6, 0, 0⟩, ⟨1/10, 0, 0⟩⟩]⟩ ⟨0, 0, 0⟩ 0).meshPos
      = List.foldl applyRecordedInput ⟨0, 0, 0⟩ [⟨10, ⟨6, 0, 0⟩, ⟨1/10, 0, 0⟩⟩] :=
  ((c4_amended_replay_and_prune ⟨⟨6, 0, 0⟩, [⟨0, ⟨5, 0, 0⟩, ⟨1/10, 0, 0⟩⟩,
      ⟨10, ⟨6, 0, 0⟩, ⟨1/10, 0, 0⟩⟩]⟩ ⟨0, 0, 0⟩ 0 ⟨0, ⟨5, 0, 0⟩, ⟨1/10, 0, 0⟩⟩
      [⟨10, ⟨6, 0, 0⟩, ⟨1/10, 0, 0⟩⟩]
      (by norm_num [findMatch, tsMatches])).2.1
    (by norm_num [dynamicThreshold, distSq, max_def, abs_of_pos]))

/-- Claim C5, counterexample: applying the identical acknowledgement a
second time moves the entity again.  The first application matches the
record at timestamp 0, snaps to the authoritative position and replays
the later record (mesh lands at 0.1); the matching record is then
pruned, so the second application finds no match within the 100 ms
tolerance and hard-accepts the authoritative position, moving the mesh
back to 0 and discarding the replayed in-flight input. -/
theorem c5_not_idempotent :
    (reconcileServerPosition
        (reconcileServerPosition ⟨⟨6, 0, 0⟩, [⟨0, ⟨5, 0, 0⟩, ⟨1/10, 0, 0⟩⟩,
          ⟨200, ⟨6, 0, 0⟩, ⟨1/10, 0, 0⟩⟩]⟩ ⟨0, 0, 0⟩ 0) ⟨0, 0, 0⟩ 0).meshPos
      ≠ (reconcileServerPosition ⟨⟨6, 0, 0⟩, [⟨0, ⟨5, 0, 0⟩, ⟨1/10, 0, 0⟩⟩,
          ⟨200, ⟨6, 0, 0⟩, ⟨1/10, 0, 0⟩⟩]⟩ ⟨0, 0, 0⟩ 0).meshPos := by
  norm_num [reconcileServerPosition, findMatch, tsMatches, dynamicThreshold, distSq,
    applyRecordedInput, max_def, abs_of_pos]

/-- Claim C5, amended: applying the same acknowledgement twice can move
the entity again (counterexample above), so the reconciler is not
idempotent in general; it is guaranteed to leave the entity where the
first application put it in the special case where the second
application finds no record matching the acknowledged timestamp and the
first application left the mesh exactly at the authoritative position. -/
theorem c5_amended_idempotent_when_resolved :
    ∀ (st : LocalPlayer) (sp : Vec3) (ts : ℚ),
      findMatch ts (reconcileServerPosition st sp ts).clientPredictions = none →
      (reconcileServerPosition st sp ts).meshPos = sp →
      reconcileServerPosition (reconcileServerPosition st sp ts) sp ts
        = reconcileServerPosition st sp ts := by
  intro st sp ts h1 h2
  generalize hst : reconcileServerPosition st sp ts = st1 at h1 h2 ⊢
  cases st1 with
  | mk mp preds =>
    simp only at h1 h2
    simp only [reconcileServerPosition, h1]
    rw [h2]

/-- Claim C5, witness for the amended theorem: a large-error
acknowledgement whose match is the last retained record resolves to the
authoritative position with nothing left to replay, and re-applying it
then changes nothing. -/
theorem c5_amended_idempotent_when_resolved_witness :
    reconcileServerPosition
        (reconcileServerPosition ⟨⟨5, 0, 0⟩, [⟨0, ⟨5, 0, 0⟩, ⟨1/100, 0, 0⟩⟩]⟩ ⟨0, 0, 0⟩ 0)
        ⟨0, 0, 0⟩ 0
      = reconcileServerPosition ⟨⟨5, 0, 0⟩, [⟨0, ⟨5, 0, 0⟩, ⟨1/100, 0, 0⟩⟩]⟩ ⟨0, 0, 0⟩ 0 :=
  c5_amended_idempotent_when_resolved ⟨⟨5, 0, 0⟩, [⟨0, ⟨5, 0, 0⟩, ⟨1/100, 0, 0⟩⟩]⟩
    ⟨0, 0, 0⟩ 0
    (by norm_num [reconcileServerPosition, findMatch, tsMatches, dynamicThreshold, distSq,
      max_def, abs_of_pos])
    (by norm_num [reconcileServerPosition, findMatch, tsMatches, dynamicThreshold, distSq,
      max_def, abs_of_pos])

/-- Claim C6: a jump is triggered only on a rising edge of the jump key
while grounded.  The jump block of the integrator sets verticalVelocity
to the configured jump velocity and clears isGrounded exactly when the
key is down, was not down on the previous tick, and the player is
grounded; when the key was already held on the previous tick or the
player is airborne it changes nothing; and each active update records
the held state of the key, so a key held across ticks can never
retrigger on the following tick. -/
theorem c6_jump_edge_detection :
    ∀ (cosF sinF : ℚ → ℚ) (c : Controls) (y : ℚ),
      (c.keys.jump = true → c.wasJumpPressed = false → c.isGrounded = true →
        applyJump c = { c with verticalVelocity := c.jumpForce, isGrounded := false })
      ∧ (c.wasJumpPressed = true ∨ c.isGrounded = false → applyJump c = c)
      ∧ (c.isActive = true → (update cosF sinF c y).1.wasJumpPressed = c.keys.jump)
      ∧ (c.isActive = true → c.keys.jump = true →
          applyJump (update cosF sinF c y).1 = (update cosF sinF c y).1) := by
  intro cosF sinF c y
  refine ⟨?_, ?_, ?_, ?_⟩
  · intro hj hw hg
    simp [applyJump, hj, hw, hg]
  · intro h
    rcases h with h | h
    · simp [applyJump, h]
    · simp [applyJump, h]
  · intro ha
    simp [update, ha]
  · intro ha hj
    simp [update, ha, applyJump, hj]

/-- Claim C6, witness: from the grounded jump-held start state, the jump
block fires and sets the velocity to the configured jump force. -/
theorem c6_jump_edge_detection_witness :
    applyJump jumpHeldControls
      = { jumpHeldControls with
          verticalVelocity := jumpHeldControls.jumpForce
          isGrounded := false } :=
  (c6_jump_edge_detection zeroTrig zeroTrig jumpHeldControls 0).1 rfl rfl rfl

/-- Claim C10: blurring resets every held-key flag and deactivates the
controls without touching the vertical physics state, and on any
inactive controls state update returns the zero movement vector and
leaves the whole state (verticalVelocity and isGrounded included)
unchanged, as does getMovementVector. -/
theorem c10_inactive_frozen :
    ∀ (cosF sinF : ℚ → ℚ) (c : Controls) (y : ℚ),
      ((handleBlur c).isActive = false ∧ (handleBlur c).keys = noKeys
        ∧ (handleBlur c).verticalVelocity = c.verticalVelocity
        ∧ (handleBlur c).isGrounded = c.isGrounded)
      ∧ (c.isActive = false →
          update cosF sinF c y = (c, ⟨0, 0, 0⟩)
          ∧ getMovementVector cosF sinF c = ⟨0, 0, 0⟩) := by
  intro cosF sinF c y
  refine ⟨⟨rfl, rfl, rfl, rfl⟩, ?_⟩
  intro h
  constructor
  · simp [update, h]
  · simp [getMovementVector, h]

/-- Claim C10, witness: updating freshly blurred controls produces the
zero movement vector and the unchanged state. -/
theorem c10_inactive_frozen_witness :
    update zeroTrig zeroTrig (handleBlur defaultControls) 0
      = (handleBlur defaultControls, ⟨0, 0, 0⟩) :=
  ((c10_inactive_frozen zeroTrig zeroTrig (handleBlur defaultControls) 0).2 rfl).1

/-- The older bracket returned by the snapshot scan is the accumulator
or an element of the scanned buffer. -/
theorem findBracketGo_older_mem (rt : ℚ) (l : List RemoteSnapshot) :
    ∀ (acc : Option RemoteSnapshot) (o : RemoteSnapshot) (n : Option RemoteSnapshot),
      findBracketGo rt acc l = (some o, n) → acc = some o ∨ o ∈ l := by
  induction l with
  | nil =>
    intro acc o n h
    simp only [findBracketGo, Prod.mk.injEq] at h
    exact Or.inl h.1
  | cons s rest ih =>
    intro acc o n h
    simp only [findBracketGo] at h
    by_cases hs : s.t ≤ rt
    · rw [if_pos hs] at h
      rcases ih (some s) o n h with h1 | h1
      · rw [Option.some.injEq] at h1
        exact Or.inr (h1 ▸ List.mem_cons_self s rest)
      · exact Or.inr (List.mem_cons_of_mem s h1)
    · rw [if_neg hs] at h
      rw [Prod.mk.injEq] at h
      exact Or.inl h.1

/-- The newer bracket returned by the snapshot scan is an element of the
scanned buffer. -/
theorem findBracketGo_newer_mem (rt : ℚ) (l : List RemoteSnapshot) :
    ∀ (acc o : Option RemoteSnapshot) (n : RemoteSnapshot),
      findBracketGo rt acc l = (o, some n) → n ∈ l := by
  induction l with
  | nil =>
    intro acc o n h
    simp only [findBracketGo, Prod.mk.injEq] at h
    exact absurd h.2 (by simp)
  | cons s rest ih =>
    intro acc o n h
    simp only [findBracketGo] at h
    by_cases hs : s.t ≤ rt
    · rw [if_pos hs] at h
      exact List.mem_cons_of_mem s (ih (some s) o n h)
    · rw [if_neg hs] at h
      rw [Prod.mk.injEq, Option.some.injEq] at h
      exact h.2 ▸ List.mem_cons_self s rest

/-- The older bracket returned by the snapshot scan is at or before the
render time, provided the accumulator already is. -/
theorem findBracketGo_older_le (rt : ℚ) (l : List RemoteSnapshot) :
    ∀ (acc : Option RemoteSnapshot) (o : RemoteSnapshot) (n : Option RemoteSnapshot),
      (∀ a, acc = some a → a.t ≤ rt) →
      findBracketGo rt acc l = (some o, n) → o.t ≤ rt := by
  induction l with
  | nil =>
    intro acc o n hacc h
    simp only [findBracketGo, Prod.mk.injEq] at h
    exact hacc o h.1
  | cons s rest ih =>
    intro acc o n hacc h
    simp only [findBracketGo] at h
    by_cases hs : s.t ≤ rt
    · rw [if_pos hs] at h
      refine ih (some s) o n ?_ h
      intro a ha
      rw [Option.some.injEq] at ha
      exact ha ▸ hs
    · rw [if_neg hs] at h
      rw [Prod.mk.injEq] at h
      exact hacc o h.1

/-- The newer bracket returned by the snapshot scan is strictly after
the render time. -/
theorem findBracketGo_newer_gt (rt : ℚ) (l : List RemoteSnapshot) :
    ∀ (acc o : Option RemoteSnapshot) (n : RemoteSnapshot),
      findBracketGo rt acc l = (o, some n) → rt < n.t := by
  induction l with
  | nil =>
    intro acc o n h
    simp only [findBracketGo, Prod.mk.injEq] at h
    exact absurd h.2 (by simp)
  | cons s rest ih =>
    intro acc o n h
    simp only [findBracketGo] at h
    by_cases hs : s.t ≤ rt
    · rw [if_pos hs] at h
      exact ih (some s) o n h
    · rw [if_neg hs] at h
      rw [Prod.mk.injEq, Option.some.injEq] at h
      exact h.2 ▸ not_le.mp hs

/-- Claim C2: the remote interpolator renders with renderTime = now
minus the 100 ms default delay; when both brackets exist it returns the
linear interpolation at the true fractional time position (the clamp is
inactive because the brackets really straddle renderTime); with only an
older snapshot it holds it, with only a newer one it uses it directly;
the spec scenario (snapshots at t 0 and t 100 with positions 0 and 1,
renderTime 50) yields position one half; and every rendered position is
a convex combination of two buffered snapshot positions, so it is never
extrapolated beyond the buffer. -/
theorem c2_remote_interpolation :
    interpolationDelayMs = 100
    ∧ (∀ now, renderTimeAt now = now - 100)
    ∧ interpolateRemote 50 [⟨0, 0, 0, 0⟩, ⟨100, 1, 0, 0⟩] = some ⟨1/2, 0, 0⟩
    ∧ (∀ rt snaps o, findBracket rt snaps = (some o, none) →
        interpolateRemote rt snaps = some (snapshotPos o))
    ∧ (∀ rt snaps n, findBracket rt snaps = (none, some n) →
        interpolateRemote rt snaps = some (snapshotPos n))
    ∧ (∀ rt snaps o n, findBracket rt snaps = (some o, some n) →
        o.t ≤ rt ∧ rt < n.t
          ∧ interpolateRemote rt snaps = some (lerpSnap o n ((rt - o.t) / (n.t - o.t))))
    ∧ (∀ rt snaps p, interpolateRemote rt snaps = some p →
        ∃ s1 s2, s1 ∈ snaps ∧ s2 ∈ snaps
          ∧ ∃ a : ℚ, 0 ≤ a ∧ a ≤ 1 ∧ p = lerpSnap s1 s2 a) := by
  refine ⟨rfl, fun now => rfl, ?_, ?_, ?_, ?_, ?_⟩
  · norm_num [interpolateRemote, findBracket, findBracketGo, lerpSnap]
  · intro rt snaps o h
    simp only [interpolateRemote, h]
  · intro rt snaps n h
    simp only [interpolateRemote, h]
  · intro rt snaps o n h
    have h' : findBracketGo rt none snaps = (some o, some n) := h
    have hle : o.t ≤ rt :=
      findBracketGo_older_le rt snaps none o (some n) (fun a ha => Option.noConfusion ha) h'
    have hgt : rt < n.t := findBracketGo_newer_gt rt snaps none (some o) n h'
    have hspan : 0 < n.t - o.t := sub_pos.mpr (lt_of_le_of_lt hle hgt)
    have ha0 : 0 ≤ (rt - o.t) / (n.t - o.t) :=
      div_nonneg (sub_nonneg.mpr hle) (le_of_lt hspan)
    have ha1 : (rt - o.t) / (n.t - o.t) < 1 := (div_lt_one hspan).mpr (by linarith)
    refine ⟨hle, hgt, ?_⟩
    simp only [interpolateRemote, h]
    rw [if_pos hspan, min_eq_right (le_of_lt ha1), max_eq_right ha0]
  · intro rt snaps p h
    simp only [interpolateRemote] at h
    rcases hfb : findBracket rt snaps with ⟨oo, nn⟩
    rw [hfb] at h
    have hfb' : findBracketGo rt none snaps = (oo, nn) := hfb
    match oo, nn with
    | none, none => simp at h
    | some o, some n =>
      simp only [Option.some.injEq] at h
      refine ⟨o, n, ?_, findBracketGo_newer_mem rt snaps none (some o) n hfb', ?_⟩
      · rcases findBracketGo_older_mem rt snaps none o (some n) hfb' with h1 | h1
        · exact Option.noConfusion h1
        · exact h1
      · refine ⟨max 0 (min 1 (if 0 < n.t - o.t then (rt - o.t) / (n.t - o.t) else 0)),
          le_max_left 0 _, ?_, h.symm⟩
        exact max_le (by norm_num) (min_le_left 1 _)
    | some o, none =>
      simp only [Option.some.injEq] at h
      have hmem : o ∈ snaps := by
        rcases findBracketGo_older_mem rt snaps none o none hfb' with h1 | h1
        · exact Option.noConfusion h1
        · exact h1
      refine ⟨o, o, hmem, hmem, 0, le_refl 0, by norm_num, ?_⟩
      rw [← h]
      simp [snapshotPos, lerpSnap]
    | none, some n =>
      simp only [Option.some.injEq] at h
      have hmem : n ∈ snaps := findBracketGo_newer_mem rt snaps none none n hfb'
      refine ⟨n, n, hmem, hmem, 0, le_refl 0, by norm_num, ?_⟩
      rw [← h]
      simp [snapshotPos, lerpSnap]

/-- Claim C2, witness: the bracketed case of the theorem applied to the
spec scenario buffer renders the exact fractional interpolation. -/
theorem c2_remote_interpolation_witness :
    interpolateRemote 50 [⟨0, 0, 0, 0⟩, ⟨100, 1, 0, 0⟩]
      = some (lerpSnap ⟨0, 0, 0, 0⟩ ⟨100, 1, 0, 0⟩ ((50 - (0 : ℚ)) / (100 - 0))) :=
  (c2_remote_interpolation.2.2.2.2.2.1 50 [⟨0, 0, 0, 0⟩, ⟨100, 1, 0, 0⟩]
    ⟨0, 0, 0, 0⟩ ⟨100, 1, 0, 0⟩
    (by norm_num [findBracket, findBracketGo])).2.2

/-- Concrete evaluation of the jump scenario in exact rational
arithmetic: airborne after the jump tick, still airborne at tick 23,
grounded again exactly at tick 24 with the position back at ground
level. -/
theorem jumpIter_eval :
    (jumpIter 1).1.isGrounded = false ∧ (jumpIter 23).1.isGrounded = false
    ∧ (jumpIter 24).1.isGrounded = true ∧ (jumpIter 24).2 = 0 := by
  norm_num [jumpIter, update, applyJump, getMovementVector, jumpHeldControls, setPhysicsConfig,
    defaultControls, serverPhysicsConfig, GRAVITY, JUMP_VELOCITY, noKeys, zeroTrig]

/-- An active update leaves the activity flag, the keys, the ground
level and the gravity unchanged and records the held state of the jump
key. -/
theorem update_preserves (cosF sinF : ℚ → ℚ) (c : Controls) (y : ℚ) (ha : c.isActive = true) :
    (update cosF sinF c y).1.isActive = true
    ∧ (update cosF sinF c y).1.keys = c.keys
    ∧ (update cosF sinF c y).1.groundLevel = c.groundLevel
    ∧ (update cosF sinF c y).1.gravity = c.gravity
    ∧ (update cosF sinF c y).1.wasJumpPressed = c.keys.jump := by
  by_cases hb : (c.keys.jump && !c.wasJumpPressed && c.isGrounded) = true
  · simp [update, applyJump, ha, hb]
  · simp [update, applyJump, ha, hb]

/-- A grounded, resting state with the jump key recorded as already held
stays grounded and resting under an active update, and the position
stays at ground level. -/
theorem update_grounded_stays (cosF sinF : ℚ → ℚ) (c : Controls) (y : ℚ)
    (ha : c.isActive = true) (hw : c.wasJumpPressed = true) (hg : c.isGrounded = true)
    (hv : c.verticalVelocity = 0) (hy : y ≤ c.groundLevel) :
    (update cosF sinF c y).1.isGrounded = true
    ∧ (update cosF sinF c y).1.verticalVelocity = 0
    ∧ y + (update cosF sinF c y).2.y = c.groundLevel := by
  simp [update, applyJump, ha, hw, hg, hv, hy]

/-- An airborne state with the jump key recorded as already held can
become grounded only by landing, which zeroes the vertical velocity and
puts the position exactly at ground level. -/
theorem update_airborne_landing (cosF sinF : ℚ → ℚ) (c : Controls) (y : ℚ)
    (ha : c.isActive = true) (hw : c.wasJumpPressed = true) (hg : c.isGrounded = false) :
    (update cosF sinF c y).1.isGrounded = true →
    (update cosF sinF c y).1.verticalVelocity = 0
    ∧ y + (update cosF sinF c y).2.y = c.groundLevel := by
  by_cases hl : y + (c.verticalVelocity - c.gravity) ≤ c.groundLevel
  · intro _
    simp [update, applyJump, ha, hw, hg, hl]
  · intro hgr
    exfalso
    simp [update, applyJump, ha, hw, hg, hl] at hgr

/-- Invariant of the jump scenario: the controls stay active with the
jump key held and ground level zero; from tick 1 on the jump key is
recorded as held, and whenever the state is grounded the vertical
velocity is zero and the position is at or below ground level. -/
theorem jumpIter_inv : ∀ k : ℕ,
    (jumpIter k).1.isActive = true
    ∧ (jumpIter k).1.keys = { noKeys with jump := true }
    ∧ (jumpIter k).1.groundLevel = 0
    ∧ (1 ≤ k → (jumpIter k).1.wasJumpPressed = true)
    ∧ (1 ≤ k → (jumpIter k).1.isGrounded = true →
        (jumpIter k).1.verticalVelocity = 0 ∧ (jumpIter k).2 ≤ 0) := by
  intro k
  induction k with
  | zero =>
    refine ⟨rfl, rfl, rfl, ?_, ?_⟩ <;> intro h <;> exact absurd h (by omega)
  | succ k ih =>
    obtain ⟨ha, hkeys, hgl, hwas, hinv⟩ := ih
    have hjump : (jumpIter k).1.keys.jump = true := by rw [hkeys]
    have hp := update_preserves zeroTrig zeroTrig (jumpIter k).1 (jumpIter k).2 ha
    refine ⟨hp.1, ?_, ?_, ?_, ?_⟩
    · exact hp.2.1.trans hkeys
    · exact hp.2.2.1.trans hgl
    · intro _
      exact hp.2.2.2.2.trans hjump
    · intro _ hgr
      rcases Nat.eq_zero_or_pos k with rfl | hk
      · rw [jumpIter_eval.1] at hgr
        exact Bool.noConfusion hgr
      · cases hcg : (jumpIter k).1.isGrounded with
        | true =>
          obtain ⟨hv, hy⟩ := hinv hk hcg
          have hs := update_grounded_stays zeroTrig zeroTrig (jumpIter k).1 (jumpIter k).2
            ha (hwas hk) hcg hv (by rw [hgl]; exact hy)
          refine ⟨hs.2.1, ?_⟩
          have hy1 := hs.2.2
          rw [hgl] at hy1
          exact le_of_eq hy1
        | false =>
          have hs := update_airborne_landing zeroTrig zeroTrig (jumpIter k).1 (jumpIter k).2
            ha (hwas hk) hcg hgr
          refine ⟨hs.1, ?_⟩
          have hy1 := hs.2
          rw [hgl] at hy1
          exact le_of_eq hy1

/-- Once the jump scenario is grounded again at some tick at least 1, it
stays grounded on every later tick: the held jump key cannot retrigger. -/
theorem jumpIter_grounded_persists : ∀ k : ℕ, 1 ≤ k → (jumpIter k).1.isGrounded = true →
    (jumpIter (k + 1)).1.isGrounded = true := by
  intro k hk hg
  obtain ⟨ha, hkeys, hgl, hwas, hinv⟩ := jumpIter_inv k
  obtain ⟨hv, hy⟩ := hinv hk hg
  have hs := update_grounded_stays zeroTrig zeroTrig (jumpIter k).1 (jumpIter k).2
    ha (hwas hk) hg hv (by rw [hgl]; exact hy)
  exact hs.1

/-- Claim C7, counterexample: the claimed flight time of 25 ticks is
wrong; the state is already grounded again after 24 ticks (and still
airborne after 23), because gravity is subtracted already on the jump
tick itself. -/
theorem c7_flight_not_25_ticks :
    (jumpIter 23).1.isGrounded = false ∧ (jumpIter 24).1.isGrounded = true :=
  ⟨jumpIter_eval.2.1, jumpIter_eval.2.2.1⟩

/-- Claim C7, amended: with jump velocity 0.25 and gravity 0.02 per tick
the discrete rule of the integrator (which applies gravity already on
the jump tick) yields a flight time of exactly 24 ticks, one less than
the closed-form 2 v0 / g = 25: the state is airborne on every tick from
1 through 23 and grounded again at tick 24 with the position exactly at
ground level, in exact rational arithmetic. -/
theorem c7_amended_flight_24_ticks :
    (∀ k, 1 ≤ k → k ≤ 23 → (jumpIter k).1.isGrounded = false)
    ∧ (jumpIter 24).1.isGrounded = true ∧ (jumpIter 24).2 = 0 := by
  refine ⟨?_, jumpIter_eval.2.2.1, jumpIter_eval.2.2.2⟩
  intro k h1 h23
  by_contra hfg
  simp only [Bool.not_eq_false] at hfg
  have hall : ∀ d, (jumpIter (k + d)).1.isGrounded = true := by
    intro d
    induction d with
    | zero => exact hfg
    | succ d ihd => exact jumpIter_grounded_persists (k + d) (by omega) ihd
  have h23g := hall (23 - k)
  rw [Nat.add_sub_cancel' h23] at h23g
  rw [jumpIter_eval.2.1] at h23g
  exact Bool.noConfusion h23g

/-- Claim C7, witness for the amended theorem: the state is airborne at
tick 10 of the jump. -/
theorem c7_amended_flight_24_ticks_witness :
    (jumpIter 10).1.isGrounded = false :=
  c7_amended_flight_24_ticks.1 10 (by decide) (by decide)

/-- Appending a prediction record to a history of at most 60 entries
keeps it at most 60 entries. -/
theorem pushPrediction_length_le (l : List PredictionRecord) (p : PredictionRecord)
    (h : l.length ≤ 60) : (pushPrediction l p).length ≤ 60 := by
  simp only [pushPrediction]
  split_ifs with h1 <;>
    simp only [List.length_drop, List.length_append, List.length_cons,
      List.length_nil] at h1 ⊢ <;>
    omega

/-- Reconciliation never grows the prediction history. -/
theorem reconcile_length_le (st : LocalPlayer) (sp : Vec3) (ts : ℚ) :
    (reconcileServerPosition st sp ts).clientPredictions.length
      ≤ st.clientPredictions.length := by
  rcases hm : findMatch ts st.clientPredictions with _ | ⟨pred, rest⟩
  · simp [reconcileServerPosition, hm]
  · obtain ⟨pre, hpre, _⟩ := findMatch_split ts st.clientPredictions pred rest hm
    have hr : rest.length ≤ st.clientPredictions.length := by
      rw [hpre]
      simp only [List.length_append, List.length_cons]
      omega
    simp only [reconcileServerPosition, hm]
    split_ifs <;> simpa using hr

/-- A prediction or acknowledgement event preserves the 60-entry bound
on the prediction history. -/
theorem stepClient_length_le (st : LocalPlayer) (e : ClientEvent)
    (h : st.clientPredictions.length ≤ 60) :
    (stepClient st e).clientPredictions.length ≤ 60 := by
  cases e with
  | predict p => exact pushPrediction_length_le st.clientPredictions p h
  | serverUpdate sp ts => exact le_trans (reconcile_length_le st sp ts) h

/-- Appending a snapshot always leaves at most maxSnapshotsPerPlayer
entries, whatever the starting length. -/
theorem pushSnapshot_length_le (l : List RemoteSnapshot) (s : RemoteSnapshot) :
    (pushSnapshot l s).length ≤ maxSnapshotsPerPlayer := by
  simp only [pushSnapshot, maxSnapshotsPerPlayer] at *
  split_ifs with h1 <;>
    simp only [List.length_drop, List.length_append, List.length_cons, List.length_nil] at * <;>
    omega

/-- Claim C8: both client-side history buffers are bounded by every
operation touching them.  Any sequence of predicted frames and
acknowledgements starting from a history of at most 60 prediction
records leaves at most 60 records, and any sequence of broadcast
snapshot appends starting from a buffer of at most 20 snapshots leaves
at most 20 snapshots. -/
theorem c8_bounded_buffers :
    (∀ (evs : List ClientEvent) (st : LocalPlayer),
      st.clientPredictions.length ≤ 60 →
      (evs.foldl stepClient st).clientPredictions.length ≤ 60)
    ∧ (∀ (ss : List RemoteSnapshot) (l : List RemoteSnapshot),
      l.length ≤ maxSnapshotsPerPlayer →
      (ss.foldl pushSnapshot l).length ≤ maxSnapshotsPerPlayer) := by
  constructor
  · intro evs
    induction evs with
    | nil => intro st h; simpa using h
    | cons e rest ih =>
      intro st h
      simp only [List.foldl_cons]
      exact ih _ (stepClient_length_le st e h)
  · intro ss
    induction ss with
    | nil => intro l h; simpa using h
    | cons s rest ih =>
      intro l h
      simp only [List.foldl_cons]
      exact ih _ (pushSnapshot_length_le l s)

/-- Claim C8, witness: from an empty state, a mixed event sequence keeps
the prediction history within the bound. -/
theorem c8_bounded_buffers_witness :
    (([ClientEvent.predict ⟨0, ⟨1, 0, 0⟩, ⟨1, 0, 0⟩⟩] : List ClientEvent).foldl
        stepClient ⟨⟨0, 0, 0⟩, []⟩).clientPredictions.length ≤ 60 :=
  c8_bounded_buffers.1 [ClientEvent.predict ⟨0, ⟨1, 0, 0⟩, ⟨1, 0, 0⟩⟩] ⟨⟨0, 0, 0⟩, []⟩
    (by decide)

/-- The number of reconnect outcomes in a run of consecutive closes is
bounded by the remaining attempt budget. -/
theorem closeTrace_count_le : ∀ (n : ℕ) (st : RetryState),
    ((closeTrace st n).2.countP isReconnect)
      ≤ st.maxReconnectAttempts - st.wsReconnectAttempts := by
  intro n
  induction n with
  | zero => intro st; simp [closeTrace]
  | succ n ih =>
    intro st
    simp only [closeTrace, onClose]
    split_ifs with h
    · have h2 := ih { st with wsReconnectAttempts := st.wsReconnectAttempts + 1 }
      simp only at h2
      simp [List.countP_cons, isReconnect]
      omega
    · have h2 := ih st
      simp [List.countP_cons, isReconnect]
      omega

/-- Claim C9: on repeated transport failures from a fresh connection the
client schedules exactly five reconnection attempts with strictly
increasing backoff delays (0, 1000, 2000, 3000, 4000 milliseconds) and
then surfaces the user-visible connection-lost alert; however many
closes occur, at most five reconnect attempts are ever scheduled, and
once the attempt budget is exhausted every close alerts instead of
retrying. -/
theorem c9_bounded_reconnect :
    (closeTrace initialRetryState 6).2 =
      [CloseOutcome.reconnectAfter 0, CloseOutcome.reconnectAfter 1000,
        CloseOutcome.reconnectAfter 2000, CloseOutcome.reconnectAfter 3000,
        CloseOutcome.reconnectAfter 4000, CloseOutcome.alertConnectionLost]
    ∧ (∀ n, ((closeTrace initialRetryState n).2.countP isReconnect) ≤ 5)
    ∧ (∀ st : RetryState, st.maxReconnectAttempts ≤ st.wsReconnectAttempts →
        onClose st = (st, CloseOutcome.alertConnectionLost)) := by
  refine ⟨by decide, ?_, ?_⟩
  · intro n
    have h := closeTrace_count_le n initialRetryState
    simpa [initialRetryState] using h
  · intro st h
    simp only [onClose]
    rw [if_neg (not_lt.mpr h)]

/-- Claim C9, witness: with the attempt budget exhausted, a further
close surfaces the connection-lost alert. -/
theorem c9_bounded_reconnect_witness :
    onClose ⟨5, 5⟩ = (⟨5, 5⟩, CloseOutcome.alertConnectionLost) :=
  c9_bounded_reconnect.2.2 ⟨5, 5⟩ (by decide)

end AWorld
